import Mathlib

/-!
Verification of the AntiAlgo curiosity-intelligence pipeline core.

Shallow embedding of:
  * `curiosity_intelligence/analysis/signal_detector.py` (SignalDetector),
  * `curiosity_intelligence/processing/clusterer.py` (QuestionClusterer),
  * `curiosity_intelligence/processing/embedder.py` (QuestionEmbedder),
  * `curiosity_intelligence/processing/normalizer.py` (QuestionNormalizer).

Python floats are modelled as rationals (ℚ), Python ints as `Int`/`Nat`,
Python dicts with possibly-missing keys as records of `Option` fields or
lookup functions, and code that can raise as `Except String`.
-/

set_option maxRecDepth 4096

deriving instance DecidableEq for Except

/-- Python `str.strip()` on a character list: drop leading and trailing
whitespace. -/
def pyStrip (cs : List Char) : List Char :=
  ((cs.dropWhile Char.isWhitespace).reverse.dropWhile Char.isWhitespace).reverse

/-- A member question record: a Python dict whose keys may be absent
(`none` models a missing key). Only the keys the clusterer and detector
actually read are modelled. -/
structure QRecord where
  raw_text : Option String
  normalized_text : Option String
  platform : Option String
  upvotes : Option Int
  comments : Option Int
  embedding : Option (List ℚ)
  external_created_at : Option Int
deriving Repr, DecidableEq

/-- The `QuestionCluster` dataclass from `clusterer.py`. `platform_counts`
is a Python dict (unique keys, insertion order) modelled as an association
list. -/
structure QuestionCluster where
  cluster_id : Int
  canonical_question : String
  questions : List QRecord
  centroid : Option (List ℚ)
  platform_counts : List (String × Nat)
  total_engagement : Int
  earliest_seen : Option Int
  latest_seen : Option Int
deriving Repr, DecidableEq

/-- `QuestionCluster.cross_platform_count`: number of platforms
(`len(self.platform_counts)`). -/
def QuestionCluster.cross_platform_count (c : QuestionCluster) : Nat :=
  c.platform_counts.length

/-- The `CuriositySignal` dataclass from `signal_detector.py`
(the `news_trigger` field is never touched by the detector and is
omitted). -/
structure CuriositySignal where
  cluster_id : Int
  canonical_question : String
  velocity_score : ℚ
  cross_platform_score : ℚ
  engagement_score : ℚ
  novelty_score : ℚ
  weirdness_bonus : ℚ
  final_score : ℚ
  tier : String
  is_signal : Bool
  question_count : Nat
  platform_count : Nat
  total_engagement : Int
  velocity_pct : ℚ
  platforms : List String
  sample_questions : List String
deriving Repr, DecidableEq

/-- `SignalDetector.WEIGHT_VELOCITY = 0.35`. -/
def WEIGHT_VELOCITY : ℚ := 35/100

/-- `SignalDetector.WEIGHT_CROSS_PLATFORM = 0.25`. -/
def WEIGHT_CROSS_PLATFORM : ℚ := 25/100

/-- `SignalDetector.WEIGHT_ENGAGEMENT = 0.20`. -/
def WEIGHT_ENGAGEMENT : ℚ := 20/100

/-- `SignalDetector.WEIGHT_NOVELTY = 0.20`. -/
def WEIGHT_NOVELTY : ℚ := 20/100

/-- `SignalDetector.MAX_WEIRDNESS_BONUS = 0.20`. -/
def MAX_WEIRDNESS_BONUS : ℚ := 20/100

/-- `SignalDetector.TIER_BREAKOUT = 0.85`. -/
def TIER_BREAKOUT : ℚ := 85/100

/-- `SignalDetector.TIER_STRONG = 0.75`. -/
def TIER_STRONG : ℚ := 75/100

/-- `SignalDetector.TIER_SIGNAL = 0.70`. -/
def TIER_SIGNAL : ℚ := 70/100

/-- The historical-data dict passed to the `SignalDetector` constructor:
a map from string keys to last week's member counts (`none` = key
absent). -/
def HistData : Type := String → Option Nat

/-- `SignalDetector._get_cluster_key`:
`cluster.canonical_question[:50].lower().strip()`. -/
def _get_cluster_key (cluster : QuestionCluster) : String :=
  String.mk (pyStrip ((cluster.canonical_question.toList.take 50).map Char.toLower))

/-- The piecewise normalization of a percent change inside
`SignalDetector._calc_velocity`:
`>= 100 → 1.0`, `>= 0 → 0.5 + pct/200`, else `max(0.0, 0.5 + pct/100)`. -/
def velocityScoreOfPct (pct_change : ℚ) : ℚ :=
  if pct_change ≥ 100 then 1
  else if pct_change ≥ 0 then 1/2 + pct_change / 200
  else max 0 (1/2 + pct_change / 100)

/-- `SignalDetector._calc_velocity`, returning
`(normalized_score, percentage_change)`. `historical_data.get(key, 0)`
is `(hist key).getD 0`. -/
def _calc_velocity (hist : HistData) (cluster : QuestionCluster) : ℚ × ℚ :=
  let current_count : Nat := cluster.questions.length
  let historical_count : Nat := (hist (_get_cluster_key cluster)).getD 0
  if historical_count = 0 then
    (8/10, 100)
  else
    let pct_change : ℚ :=
      (((current_count : ℚ) - (historical_count : ℚ)) / (historical_count : ℚ)) * 100
    (velocityScoreOfPct pct_change, pct_change)

/-- `SignalDetector._calc_cross_platform`: 1 platform → 0.0,
2 platforms → 0.7, 3+ → 1.0. -/
def _calc_cross_platform (cluster : QuestionCluster) : ℚ :=
  let count := cluster.cross_platform_count
  if count ≥ 3 then 1
  else if count = 2 then 7/10
  else 0

/-- `SignalDetector._calc_engagement`: `min(1.0, total / max_engagement)`,
with the dead-code guard for `max_engagement == 0` kept. -/
def _calc_engagement (max_engagement : Int) (cluster : QuestionCluster) : ℚ :=
  if max_engagement = 0 then 0
  else min 1 ((cluster.total_engagement : ℚ) / (max_engagement : ℚ))

/-- `SignalDetector._calc_novelty`: 1.0 if the key was never seen
(`historical_key not in self.historical_data`), else 0.3. -/
def _calc_novelty (hist : HistData) (cluster : QuestionCluster) : ℚ :=
  if hist (_get_cluster_key cluster) = none then 1
  else 3/10

/-- `SignalDetector._calc_weirdness`. Dividing
`cluster.total_engagement / len(cluster.questions)` raises
`ZeroDivisionError` in Python when the member list is empty, hence the
`Except`. (`set(platform_counts.keys())` has the same size as the dict,
keys being unique.) -/
def _calc_weirdness (cluster : QuestionCluster) : Except String ℚ :=
  if cluster.platform_counts.length ≥ 3 then
    .ok MAX_WEIRDNESS_BONUS
  else if cluster.questions.length = 0 then
    .error "ZeroDivisionError"
  else if (cluster.total_engagement : ℚ) / (cluster.questions.length : ℚ) > 50 then
    .ok (MAX_WEIRDNESS_BONUS * (1/2))
  else .ok 0

/-- `q["raw_text"]`: Python dict access raises `KeyError` on a missing
key. -/
def rawTextOf (q : QRecord) : Except String String :=
  match q.raw_text with
  | some t => .ok t
  | none => .error "KeyError"

/-- A Python list comprehension / loop over a fallible body: the first
raised exception propagates, otherwise the list of results is
collected in order. -/
def mapME {α β : Type _} (f : α → Except String β) : List α → Except String (List β)
  | [] => .ok []
  | a :: l =>
    match f a with
    | .error e => .error e
    | .ok b =>
      match mapME f l with
      | .error e => .error e
      | .ok bs => .ok (b :: bs)

/-- `SignalDetector._score_cluster`. The detector's instance state
(`threshold`, `historical_data`, cached `_max_engagement`) is passed
explicitly. The `sample_questions` extraction happens in the
`CuriositySignal(...)` constructor call, before any component score is
computed, so its `KeyError` fires first; the remaining component scores
are pure except `_calc_weirdness`. -/
def _score_cluster (threshold : ℚ) (hist : HistData) (max_engagement : Int)
    (cluster : QuestionCluster) : Except String CuriositySignal :=
  match mapME rawTextOf (cluster.questions.take 5) with
  | .error e => .error e
  | .ok sample_questions =>
    match _calc_weirdness cluster with
    | .error e => .error e
    | .ok weirdness_bonus =>
      let velocity_score := (_calc_velocity hist cluster).1
      let velocity_pct := (_calc_velocity hist cluster).2
      let cross_platform_score := _calc_cross_platform cluster
      let engagement_score := _calc_engagement max_engagement cluster
      let novelty_score := _calc_novelty hist cluster
      let final_score := min 1 (max 0 (
        velocity_score * WEIGHT_VELOCITY +
        cross_platform_score * WEIGHT_CROSS_PLATFORM +
        engagement_score * WEIGHT_ENGAGEMENT +
        novelty_score * WEIGHT_NOVELTY +
        weirdness_bonus))
      .ok {
        cluster_id := cluster.cluster_id
        canonical_question := cluster.canonical_question
        velocity_score := velocity_score
        cross_platform_score := cross_platform_score
        engagement_score := engagement_score
        novelty_score := novelty_score
        weirdness_bonus := weirdness_bonus
        final_score := final_score
        tier :=
          if final_score ≥ TIER_BREAKOUT then "breakout"
          else if final_score ≥ TIER_STRONG then "strong"
          else if final_score ≥ TIER_SIGNAL then "signal"
          else "noise"
        is_signal := decide (final_score ≥ threshold)
        question_count := cluster.questions.length
        platform_count := cluster.cross_platform_count
        total_engagement := cluster.total_engagement
        velocity_pct := velocity_pct
        platforms := cluster.platform_counts.map Prod.fst
        sample_questions := sample_questions }

/-- `SignalDetector.detect`.  `max(...) or 1` maps a zero maximum to 1
(`List.max?` on a nonempty list is Python's `max`).  Python's stable
descending sort by `final_score` produces the same list as insertion
sort under the total relation `b.final_score ≤ a.final_score`.
(`self._max_count` is also assigned in the source but never read.) -/
def detect (threshold : ℚ) (hist : HistData) (clusters : List QuestionCluster) :
    Except String (List CuriositySignal) :=
  match clusters with
  | [] => .ok []
  | _ :: _ =>
    let m : Int := ((clusters.map (·.total_engagement)).max?).getD 0
    let max_engagement : Int := if m = 0 then 1 else m
    Except.map (fun signals => signals.insertionSort (fun a b => b.final_score ≤ a.final_score))
      (mapME (_score_cluster threshold hist max_engagement) clusters)

/-- `SignalDetector.get_weird_picks`: rescore every cluster with the
cached `_max_engagement` (passed explicitly), keep those with
`weirdness_bonus > 0 and not is_signal`, sort descending by weirdness
bonus (stable, as insertion sort), truncate to `count`. -/
def get_weird_picks (threshold : ℚ) (hist : HistData) (max_engagement : Int)
    (clusters : List QuestionCluster) (count : Nat) :
    Except String (List CuriositySignal) :=
  Except.map (fun scored =>
      ((scored.filter (fun s => decide (s.weirdness_bonus > 0) && !s.is_signal)).insertionSort
        (fun a b => b.weirdness_bonus ≤ a.weirdness_bonus)).take count)
    (mapME (_score_cluster threshold hist max_engagement) clusters)


/-! ### Helper lemmas about the detector -/

theorem mapME_ok_mem {α β : Type _} {f : α → Except String β} :
    ∀ {l : List α} {res : List β}, mapME f l = .ok res → ∀ b ∈ res, ∃ a ∈ l, f a = .ok b := by
  intro l
  induction l with
  | nil =>
    intro res h b hb
    simp only [mapME] at h
    cases h
    simp at hb
  | cons a l ih =>
    intro res h b hb
    simp only [mapME] at h
    cases hfa : f a with
    | error e => rw [hfa] at h; cases h
    | ok x =>
      rw [hfa] at h
      cases hml : mapME f l with
      | error e => rw [hml] at h; cases h
      | ok xs =>
        rw [hml] at h
        cases h
        rcases List.mem_cons.mp hb with hb | hb
        · exact ⟨a, List.mem_cons_self a l, by rw [hfa, hb]⟩
        · obtain ⟨a', ha', hfa'⟩ := ih hml b hb
          exact ⟨a', List.mem_cons_of_mem _ ha', hfa'⟩

theorem except_map_ok {α β : Type _} {f : α → β} {e : Except String α} {b : β}
    (h : Except.map f e = .ok b) : ∃ a, e = .ok a ∧ b = f a := by
  cases e with
  | error err => simp [Except.map] at h
  | ok a =>
    simp only [Except.map, Except.ok.injEq] at h
    exact ⟨a, rfl, h.symm⟩

theorem score_cluster_ok_shape {threshold : ℚ} {hist : HistData} {max_engagement : Int}
    {cluster : QuestionCluster} {s : CuriositySignal}
    (h : _score_cluster threshold hist max_engagement cluster = .ok s) :
    ∃ raw : ℚ, s.final_score = min 1 (max 0 raw) ∧
      s.tier = (if s.final_score ≥ TIER_BREAKOUT then "breakout"
        else if s.final_score ≥ TIER_STRONG then "strong"
        else if s.final_score ≥ TIER_SIGNAL then "signal"
        else "noise") ∧
      s.is_signal = decide (s.final_score ≥ threshold) ∧
      (s.weirdness_bonus = MAX_WEIRDNESS_BONUS ∨
        s.weirdness_bonus = MAX_WEIRDNESS_BONUS * (1/2) ∨
        s.weirdness_bonus = 0) := by
  unfold _score_cluster at h
  cases hsq : mapME rawTextOf (cluster.questions.take 5) with
  | error e => rw [hsq] at h; cases h
  | ok sq =>
    rw [hsq] at h
    cases hw : _calc_weirdness cluster with
    | error e => rw [hw] at h; cases h
    | ok w =>
      rw [hw] at h
      cases h
      refine ⟨_, rfl, rfl, rfl, ?_⟩
      unfold _calc_weirdness at hw
      split_ifs at hw <;> cases hw <;> simp

/-! ### Concrete inputs used by the witnesses -/

/-- An empty historical map. -/
def histW : HistData := fun _ => none

/-- A historical map recording last week's count 1 for the witness
cluster's key. -/
def histPos : HistData := fun k => if k = "how do i use gpt-4?" then some 1 else none

/-- A historical map recording a count of exactly 0 for the witness
cluster's key. -/
def histZero : HistData := fun k => if k = "how do i use gpt-4?" then some 0 else none

/-- A fully populated member record. -/
def qW : QRecord :=
  { raw_text := some "How do I use GPT-4?", normalized_text := some "How do I use GPT-4?",
    platform := some "reddit", upvotes := some 10, comments := some 2,
    embedding := none, external_created_at := none }

/-- A single-platform cluster of three copies of `qW`. -/
def cW : QuestionCluster :=
  { cluster_id := 0, canonical_question := "How do I use GPT-4?",
    questions := [qW, qW, qW], centroid := none,
    platform_counts := [("reddit", 3)], total_engagement := 36,
    earliest_seen := none, latest_seen := none }

/-- The signal `detect` produces for `cW` with an empty historical map
and threshold 0.70. -/
def sigW : CuriositySignal :=
  { cluster_id := 0, canonical_question := "How do I use GPT-4?",
    velocity_score := 4/5, cross_platform_score := 0, engagement_score := 1,
    novelty_score := 1, weirdness_bonus := 0, final_score := 17/25,
    tier := "noise", is_signal := false, question_count := 3, platform_count := 1,
    total_engagement := 36, velocity_pct := 100, platforms := ["reddit"],
    sample_questions := ["How do I use GPT-4?", "How do I use GPT-4?", "How do I use GPT-4?"] }

/-! ### C1 -/

/-- C1: every signal returned by `SignalDetector.detect` has
`final_score` in [0, 1] (the clamped weighted sum), and its `tier` is
the bucket of that score under the thresholds checked in descending
order: ≥ 0.85 → "breakout", ≥ 0.75 → "strong", ≥ 0.70 → "signal",
else "noise". -/
theorem claim_C1 (threshold : ℚ) (hist : HistData)
    (clusters : List QuestionCluster) (signals : List CuriositySignal)
    (h : detect threshold hist clusters = .ok signals) :
    ∀ s ∈ signals, 0 ≤ s.final_score ∧ s.final_score ≤ 1 ∧
      s.tier = (if s.final_score ≥ TIER_BREAKOUT then "breakout"
        else if s.final_score ≥ TIER_STRONG then "strong"
        else if s.final_score ≥ TIER_SIGNAL then "signal"
        else "noise") := by
  intro s hs
  cases clusters with
  | nil =>
    unfold detect at h
    cases h
    simp at hs
  | cons c cs =>
    simp only [detect] at h
    obtain ⟨sigs, hm, hsig⟩ := except_map_ok h
    subst hsig
    have hmem : s ∈ sigs :=
      ((List.perm_insertionSort (fun a b => b.final_score ≤ a.final_score) sigs).mem_iff).mp hs
    obtain ⟨c', _, hc'⟩ := mapME_ok_mem hm s hmem
    obtain ⟨raw, hfs, htier, _⟩ := score_cluster_ok_shape hc'
    refine ⟨?_, ?_, htier⟩
    · rw [hfs]; exact le_min (by norm_num) (le_max_left 0 raw)
    · rw [hfs]; exact min_le_left _ _

/-- Witness for C1 at a concrete run. -/
theorem claim_C1_witness :
    detect (70/100) histW [cW] = .ok [sigW] ∧
    (0 ≤ sigW.final_score ∧ sigW.final_score ≤ 1 ∧
      sigW.tier = (if sigW.final_score ≥ TIER_BREAKOUT then "breakout"
        else if sigW.final_score ≥ TIER_STRONG then "strong"
        else if sigW.final_score ≥ TIER_SIGNAL then "signal"
        else "noise")) := by
  have hd : detect (70/100) histW [cW] = .ok [sigW] := by
    norm_num [detect, _score_cluster, _calc_velocity, _calc_cross_platform, _calc_engagement,
      _calc_novelty, _calc_weirdness, _get_cluster_key, mapME, rawTextOf, histW, cW, qW, sigW,
      velocityScoreOfPct, WEIGHT_VELOCITY, WEIGHT_CROSS_PLATFORM, WEIGHT_ENGAGEMENT,
      WEIGHT_NOVELTY, MAX_WEIRDNESS_BONUS, TIER_BREAKOUT, TIER_STRONG, TIER_SIGNAL,
      QuestionCluster.cross_platform_count, List.insertionSort, List.orderedInsert, Except.map]
  exact ⟨hd, claim_C1 (70/100) histW [cW] [sigW] hd sigW (by simp)⟩

/-! ### C2 -/

/-- C2: with no stored historical count for the cluster's key,
`_calc_velocity` returns the fixed pair (0.8, 100.0) whatever the
current member count; with a stored nonzero count `h`, it returns the
percent change `(current - h) / h * 100` together with its piecewise
normalization (≥100 → 1; [0,100) → 0.5 + pct/200; <0 →
max(0, 0.5 + pct/100)). -/
theorem claim_C2 (hist : HistData) (cluster : QuestionCluster) :
    (hist (_get_cluster_key cluster) = none →
      _calc_velocity hist cluster = (8/10, 100)) ∧
    (∀ h : Nat, hist (_get_cluster_key cluster) = some h → h ≠ 0 →
      _calc_velocity hist cluster =
        (velocityScoreOfPct ((((cluster.questions.length : ℚ) - (h : ℚ)) / (h : ℚ)) * 100),
          (((cluster.questions.length : ℚ) - (h : ℚ)) / (h : ℚ)) * 100) ∧
      ∀ pct : ℚ,
        (pct ≥ 100 → velocityScoreOfPct pct = 1) ∧
        (0 ≤ pct → pct < 100 → velocityScoreOfPct pct = 1/2 + pct / 200) ∧
        (pct < 0 → velocityScoreOfPct pct = max 0 (1/2 + pct / 100))) := by
  constructor
  · intro h
    simp [_calc_velocity, h]
  · intro h hh hne
    refine ⟨by simp [_calc_velocity, hh, hne], ?_⟩
    intro pct
    refine ⟨fun h1 => by simp [velocityScoreOfPct, h1], fun h0 h1 => ?_, fun hn => ?_⟩
    · rw [velocityScoreOfPct, if_neg (by linarith), if_pos (by linarith)]
    · rw [velocityScoreOfPct, if_neg (by linarith), if_neg (by linarith)]

/-- Witness for C2: an absent key gives (0.8, 100); a stored count of 1
against 3 current members gives a +200% change, normalized to 1. -/
theorem claim_C2_witness :
    _calc_velocity histW cW = (8/10, 100) ∧ _calc_velocity histPos cW = (1, 200) := by
  constructor
  · exact (claim_C2 histW cW).1 rfl
  · have h := ((claim_C2 histPos cW).2 1 (by decide) (by decide)).1
    rw [h]
    norm_num [velocityScoreOfPct, cW, qW]

/-! ### C5 -/

/-- C5: the piecewise velocity normalization is monotonically
non-decreasing on percent changes in [-100, ∞). -/
theorem claim_C5 (p₁ p₂ : ℚ) (hlb : -100 ≤ p₁) (hle : p₁ ≤ p₂) :
    velocityScoreOfPct p₁ ≤ velocityScoreOfPct p₂ := by
  unfold velocityScoreOfPct
  split_ifs <;>
    first
      | linarith
      | (apply max_le <;> linarith)
      | (exact max_le_max le_rfl (by linarith))
      | (refine le_trans ?_ (le_max_right _ _); linarith)

/-- Witness for C5 at -50 ≤ 20. -/
theorem claim_C5_witness : velocityScoreOfPct (-50) ≤ velocityScoreOfPct 20 :=
  claim_C5 (-50) 20 (by norm_num) (by norm_num)

/-! ### C10 -/

/-- C10: a key stored with count exactly 0 makes `_calc_velocity`
treat the cluster as brand-new (score 0.8, +100%) while
`_calc_novelty` simultaneously treats it as previously seen (0.3);
only an absent key yields novelty 1.0. -/
theorem claim_C10 (hist : HistData) (cluster : QuestionCluster)
    (h : hist (_get_cluster_key cluster) = some 0) :
    _calc_velocity hist cluster = (8/10, 100) ∧
    _calc_novelty hist cluster = 3/10 ∧
    (∀ hist2 : HistData, hist2 (_get_cluster_key cluster) = none →
      _calc_novelty hist2 cluster = 1) := by
  refine ⟨by simp [_calc_velocity, h], by simp [_calc_novelty, h], ?_⟩
  intro hist2 h2
  simp [_calc_novelty, h2]

/-- Witness for C10 with a map storing count 0 for the witness
cluster's key. -/
theorem claim_C10_witness :
    _calc_velocity histZero cW = (8/10, 100) ∧
    _calc_novelty histZero cW = 3/10 ∧
    _calc_novelty histW cW = 1 :=
  ⟨(claim_C10 histZero cW (by decide)).1, (claim_C10 histZero cW (by decide)).2.1,
    (claim_C10 histZero cW (by decide)).2.2 histW rfl⟩

/-! ### C3 -/

instance intLeAntisymm : Std.Antisymm (fun a b : Int => a ≤ b) :=
  ⟨fun h h' => Int.le_antisymm h h'⟩

/-- A different single-platform cluster, used in the C3 witness. -/
def cW2 : QuestionCluster :=
  { cluster_id := 1, canonical_question := "Why does my large language model hallucinate?",
    questions := [qW, qW, qW, qW], centroid := none,
    platform_counts := [("stackexchange", 4)], total_engagement := 80,
    earliest_seen := none, latest_seen := none }

theorem perm_int_max?_eq {l₁ l₂ : List Int} (h : l₁.Perm l₂) : l₁.max? = l₂.max? := by
  cases h1 : l₁.max? with
  | none =>
    have h1' : l₁ = [] := List.max?_eq_none_iff.mp h1
    subst h1'
    have h2 : l₂ = [] := h.symm.eq_nil
    subst h2
    rfl
  | some a =>
    obtain ⟨hmem, hub⟩ := (List.max?_eq_some_iff (fun x : Int => le_refl x)
      (fun x y : Int => max_choice x y) (fun x y z : Int => max_le_iff)).mp h1
    exact ((List.max?_eq_some_iff (fun x : Int => le_refl x)
      (fun x y : Int => max_choice x y) (fun x y z : Int => max_le_iff)).mpr
      ⟨h.subset hmem, fun b hb => hub b (h.symm.subset hb)⟩).symm

/-- C3: the score a cluster receives in a run is a function of the
cluster, the historical data and the multiset of clusters in the run:
permuting the cluster list does not change any cluster's signal
(score, tier and all other fields included). The normalization factor
`max(total_engagement) or 1` from `detect` is written out on each
side. -/
theorem claim_C3 (threshold : ℚ) (hist : HistData)
    (l₁ l₂ : List QuestionCluster) (hperm : l₁.Perm l₂) (c : QuestionCluster) :
    _score_cluster threshold hist
      (if ((l₁.map (·.total_engagement)).max?.getD 0) = 0 then 1
        else ((l₁.map (·.total_engagement)).max?.getD 0)) c =
    _score_cluster threshold hist
      (if ((l₂.map (·.total_engagement)).max?.getD 0) = 0 then 1
        else ((l₂.map (·.total_engagement)).max?.getD 0)) c := by
  rw [perm_int_max?_eq (hperm.map (·.total_engagement))]

/-- Witness for C3: swapping two clusters leaves the first one's
signal unchanged. -/
theorem claim_C3_witness :
    _score_cluster (70/100) histW
      (if (([cW, cW2].map (·.total_engagement)).max?.getD 0) = 0 then 1
        else (([cW, cW2].map (·.total_engagement)).max?.getD 0)) cW =
    _score_cluster (70/100) histW
      (if (([cW2, cW].map (·.total_engagement)).max?.getD 0) = 0 then 1
        else (([cW2, cW].map (·.total_engagement)).max?.getD 0)) cW :=
  claim_C3 (70/100) histW [cW, cW2] [cW2, cW] (by decide) cW

/-! ### C4 -/

/-- C4: `get_weird_picks` returns exactly the scored signals with
nonzero weirdness bonus and final score below the is-signal threshold
(`is_signal` false), sorted descending by weirdness bonus and truncated
to `count`; in particular no returned signal has `is_signal = true`. -/
theorem claim_C4 (threshold : ℚ) (hist : HistData) (max_engagement : Int)
    (clusters : List QuestionCluster) (count : Nat) (ws : List CuriositySignal)
    (h : get_weird_picks threshold hist max_engagement clusters count = .ok ws) :
    (∀ s ∈ ws, s.weirdness_bonus ≠ 0 ∧ s.final_score < threshold ∧ s.is_signal = false) ∧
    ws.length ≤ count ∧
    ws.Sorted (fun a b => b.weirdness_bonus ≤ a.weirdness_bonus) ∧
    (∀ scored, mapME (_score_cluster threshold hist max_engagement) clusters = .ok scored →
      (scored.filter (fun s =>
        decide (s.weirdness_bonus ≠ 0) && decide (s.final_score < threshold))).length ≤ count →
      ws.Perm (scored.filter (fun s =>
        decide (s.weirdness_bonus ≠ 0) && decide (s.final_score < threshold)))) := by
  simp only [get_weird_picks] at h
  obtain ⟨scored, hm, hws⟩ := except_map_ok h
  subst hws
  haveI htr : IsTrans CuriositySignal (fun a b => b.weirdness_bonus ≤ a.weirdness_bonus) :=
    ⟨fun _ _ _ h1 h2 => le_trans h2 h1⟩
  haveI hto : IsTotal CuriositySignal (fun a b => b.weirdness_bonus ≤ a.weirdness_bonus) :=
    ⟨fun a b => le_total b.weirdness_bonus a.weirdness_bonus⟩
  have hfilter_eq : scored.filter (fun s => decide (s.weirdness_bonus > 0) && !s.is_signal) =
      scored.filter (fun s =>
        decide (s.weirdness_bonus ≠ 0) && decide (s.final_score < threshold)) := by
    apply List.filter_congr
    intro s hs
    obtain ⟨c', _, hc'⟩ := mapME_ok_mem hm s hs
    obtain ⟨raw, _, _, hsig, hwd⟩ := score_cluster_ok_shape hc'
    have hpos : (decide (s.weirdness_bonus > 0)) = (decide (s.weirdness_bonus ≠ 0)) := by
      rcases hwd with hw | hw | hw <;> rw [hw] <;> norm_num [MAX_WEIRDNESS_BONUS]
    have hneg : (!s.is_signal) = (decide (s.final_score < threshold)) := by
      rw [hsig]
      by_cases hge : s.final_score ≥ threshold
      · simp [hge, not_lt.mpr hge]
      · simp [hge, lt_of_not_ge hge]
    rw [hpos, hneg]
  rw [hfilter_eq]
  set F := scored.filter (fun s =>
    decide (s.weirdness_bonus ≠ 0) && decide (s.final_score < threshold)) with hF
  have hsorted : (F.insertionSort (fun a b => b.weirdness_bonus ≤ a.weirdness_bonus)).Sorted
      (fun a b => b.weirdness_bonus ≤ a.weirdness_bonus) :=
    List.sorted_insertionSort _ F
  refine ⟨?_, ?_, ?_, ?_⟩
  · intro s hsw
    have hs1 : s ∈ F.insertionSort (fun a b => b.weirdness_bonus ≤ a.weirdness_bonus) :=
      List.mem_of_mem_take hsw
    have hs2 : s ∈ F := (List.perm_insertionSort _ F).subset hs1
    have hs3 := List.mem_filter.mp hs2
    have hp := hs3.2
    simp only [Bool.and_eq_true, decide_eq_true_eq] at hp
    obtain ⟨c', _, hc'⟩ := mapME_ok_mem hm s hs3.1
    obtain ⟨raw, _, _, hsig, _⟩ := score_cluster_ok_shape hc'
    refine ⟨hp.1, hp.2, ?_⟩
    rw [hsig]
    simp [not_le.mpr hp.2]
  · simpa using List.length_take_le count _
  · exact hsorted.take
  · intro scored' hm' hlen
    have : scored' = scored := by
      rw [hm'] at hm
      exact Except.ok.inj hm
    subst this
    rw [List.take_of_length_le]
    · exact List.perm_insertionSort _ F
    · rw [List.length_insertionSort]
      exact hlen

/-- A member record with unusually high engagement, used in the C4
witness. -/
def qWeird : QRecord :=
  { raw_text := some "Is my toaster sentient now?",
    normalized_text := some "Is my toaster sentient now?",
    platform := some "reddit", upvotes := some 90, comments := some 10,
    embedding := none, external_created_at := none }

/-- A single-platform cluster whose per-question engagement (100)
exceeds 50, earning the half weirdness bonus. -/
def cWeird : QuestionCluster :=
  { cluster_id := 2, canonical_question := "Is my toaster sentient now?",
    questions := [qWeird, qWeird], centroid := none,
    platform_counts := [("reddit", 2)], total_engagement := 200,
    earliest_seen := none, latest_seen := none }

/-- The signal `get_weird_picks` produces for `cWeird` against a run
maximum engagement of 1000. -/
def sigWeird : CuriositySignal :=
  { cluster_id := 2, canonical_question := "Is my toaster sentient now?",
    velocity_score := 4/5, cross_platform_score := 0, engagement_score := 1/5,
    novelty_score := 1, weirdness_bonus := 1/10, final_score := 31/50,
    tier := "noise", is_signal := false, question_count := 2, platform_count := 1,
    total_engagement := 200, velocity_pct := 100, platforms := ["reddit"],
    sample_questions := ["Is my toaster sentient now?", "Is my toaster sentient now?"] }

/-- Witness for C4 at a concrete weird pick. -/
theorem claim_C4_witness :
    get_weird_picks (70/100) histW 1000 [cWeird] 5 = .ok [sigWeird] ∧
    (sigWeird.weirdness_bonus ≠ 0 ∧ sigWeird.final_score < 70/100 ∧
      sigWeird.is_signal = false) ∧
    [sigWeird].length ≤ 5 ∧
    List.Sorted (fun a b : CuriositySignal => b.weirdness_bonus ≤ a.weirdness_bonus)
      [sigWeird] := by
  have hd : get_weird_picks (70/100) histW 1000 [cWeird] 5 = .ok [sigWeird] := by
    norm_num [get_weird_picks, _score_cluster, _calc_velocity, _calc_cross_platform,
      _calc_engagement, _calc_novelty, _calc_weirdness, _get_cluster_key, mapME, rawTextOf,
      histW, cWeird, qWeird, sigWeird, velocityScoreOfPct, WEIGHT_VELOCITY,
      WEIGHT_CROSS_PLATFORM, WEIGHT_ENGAGEMENT, WEIGHT_NOVELTY, MAX_WEIRDNESS_BONUS,
      TIER_BREAKOUT, TIER_STRONG, TIER_SIGNAL, QuestionCluster.cross_platform_count,
      List.insertionSort, List.orderedInsert, Except.map, List.filter]
  have hmain := claim_C4 (70/100) histW 1000 [cWeird] 5 [sigWeird] hd
  exact ⟨hd, hmain.1 sigWeird (by simp), hmain.2.1, hmain.2.2.1⟩

/-! ### C7 -/

theorem mapME_ok_of_forall_ok {α β : Type _} {f : α → Except String β} :
    ∀ {l : List α}, (∀ a ∈ l, ∃ b, f a = .ok b) → ∃ bs, mapME f l = .ok bs := by
  intro l
  induction l with
  | nil => intro _; exact ⟨[], rfl⟩
  | cons a l ih =>
    intro hall
    obtain ⟨b, hb⟩ := hall a (List.mem_cons_self a l)
    obtain ⟨bs, hbs⟩ := ih (fun x hx => hall x (List.mem_cons_of_mem _ hx))
    exact ⟨b :: bs, by simp [mapME, hb, hbs]⟩

/-- A cluster with an empty member list (the degenerate shape the spec
says the detector tolerates). -/
def cEmpty : QuestionCluster :=
  { cluster_id := 3, canonical_question := "Why is the sky blue?",
    questions := [], centroid := none, platform_counts := [],
    total_engagement := 0, earliest_seen := none, latest_seen := none }

/-- A member record missing both its `raw_text` and `embedding` keys. -/
def qNoRaw : QRecord :=
  { raw_text := none, normalized_text := some "x", platform := some "reddit",
    upvotes := some 1, comments := some 0, embedding := none,
    external_created_at := none }

/-- Counterexample to C7: a cluster whose member list is empty makes
`detect` raise `ZeroDivisionError` (in `_calc_weirdness`,
`total_engagement / len(questions)`), rather than treating the missing
numbers as zero. -/
theorem claim_C7_counterexample :
    detect (70/100) histW [cEmpty] = .error "ZeroDivisionError" := by
  norm_num [detect, _score_cluster, _calc_weirdness, _get_cluster_key, mapME,
    rawTextOf, histW, cEmpty, Except.map]

/-- C7 (amended): an empty cluster list yields empty output, and
`detect` succeeds — never raises — on every cluster list whose
clusters have a nonempty member list with `raw_text` present on the
members; but a cluster with an empty member list spanning fewer than
three platforms makes `_score_cluster` (hence `detect`) raise
`ZeroDivisionError` instead of treating the missing numbers as
zero. -/
theorem claim_C7 (threshold : ℚ) (hist : HistData) :
    detect threshold hist [] = .ok [] ∧
    (∀ clusters : List QuestionCluster,
      (∀ c ∈ clusters, c.questions ≠ [] ∧ ∀ q ∈ c.questions, q.raw_text ≠ none) →
      ∃ signals, detect threshold hist clusters = .ok signals) ∧
    (∀ c : QuestionCluster, c.questions = [] → c.platform_counts.length < 3 →
      ∀ max_engagement, _score_cluster threshold hist max_engagement c =
        .error "ZeroDivisionError") := by
  refine ⟨rfl, ?_, ?_⟩
  · intro clusters hwf
    cases clusters with
    | nil => exact ⟨[], rfl⟩
    | cons c cs =>
      have hscore : ∀ c' ∈ (c :: cs), ∃ s, _score_cluster threshold hist
          (if (((c :: cs).map (·.total_engagement)).max?.getD 0) = 0 then 1
            else (((c :: cs).map (·.total_engagement)).max?.getD 0)) c' = .ok s := by
        intro c' hc'
        obtain ⟨hne, hraw⟩ := hwf c' hc'
        obtain ⟨sq, hsq⟩ : ∃ sq, mapME rawTextOf (c'.questions.take 5) = .ok sq := by
          apply mapME_ok_of_forall_ok
          intro q hq
          have hq' : q ∈ c'.questions := List.mem_of_mem_take hq
          cases hqr : q.raw_text with
          | none => exact absurd hqr (hraw q hq')
          | some t => exact ⟨t, by simp [rawTextOf, hqr]⟩
        obtain ⟨w, hw⟩ : ∃ w, _calc_weirdness c' = .ok w := by
          unfold _calc_weirdness
          split_ifs with h1 h2 h3
          · exact ⟨_, rfl⟩
          · exact absurd (List.length_eq_zero.mp h2) hne
          · exact ⟨_, rfl⟩
          · exact ⟨_, rfl⟩
        exact ⟨_, by unfold _score_cluster; rw [hsq, hw]⟩
      obtain ⟨sigs, hsigs⟩ := mapME_ok_of_forall_ok hscore
      exact ⟨_, by simp only [detect]; rw [hsigs]; rfl⟩
  · intro c hq hp max_engagement
    unfold _score_cluster
    rw [hq]
    have hz : _calc_weirdness c = .error "ZeroDivisionError" := by
      unfold _calc_weirdness
      rw [if_neg (by omega), if_pos (by rw [hq]; rfl)]
    rw [hz]
    rfl

/-- Witness for C7 (amended) at concrete inputs: a well-formed run
succeeds, and the degenerate empty-member cluster fails. -/
theorem claim_C7_witness :
    detect (70/100) histW [] = .ok [] ∧
    (detect (70/100) histW [cW]).isOk = true ∧
    _score_cluster (70/100) histW 1 cEmpty = .error "ZeroDivisionError" := by
  have h := claim_C7 (70/100) histW
  obtain ⟨sigs, hsigs⟩ := h.2.1 [cW] (by decide)
  exact ⟨h.1, by rw [hsigs]; rfl, h.2.2 cEmpty rfl (by decide) 1⟩

/-! ### The clusterer (`clusterer.py`) -/

/-- `q["embedding"]`: dict access raising `KeyError` on a missing key. -/
def getEmbedding (q : QRecord) : Except String (List ℚ) :=
  match q.embedding with
  | some v => .ok v
  | none => .error "KeyError"

/-- One step of `platform_counts[platform] = platform_counts.get(platform, 0) + 1`
on a dict kept in insertion order. -/
def bumpPlatform (counts : List (String × Nat)) (p : String) : List (String × Nat) :=
  match counts with
  | [] => [(p, 1)]
  | (k, n) :: rest =>
    if k = p then (k, n + 1) :: rest else (k, n) :: bumpPlatform rest p

/-- Componentwise sum of two vectors (`numpy` addition; the source only
ever adds vectors of equal dimension). -/
def vecAdd (a b : List ℚ) : List ℚ := List.zipWith (· + ·) a b

/-- `np.mean(embeddings, axis=0)`: coordinatewise mean. -/
def vecMean (vs : List (List ℚ)) : List ℚ :=
  match vs with
  | [] => []
  | v :: rest => (rest.foldl vecAdd v).map (· / (vs.length : ℚ))

/-- Squared Euclidean distance. `np.linalg.norm` takes the square root,
but `np.argmin` of the norms equals the argmin of the squared norms, so
the embedding stays inside ℚ. -/
def sqDist (a b : List ℚ) : ℚ :=
  (List.zipWith (fun x y => (x - y) * (x - y)) a b).sum

/-- `np.argmin`: index of the first occurrence of the minimum. -/
def argminAux (l : List ℚ) (bestIdx : Nat) (bestVal : ℚ) (cur : Nat) : Nat :=
  match l with
  | [] => bestIdx
  | x :: rest =>
    if x < bestVal then argminAux rest cur x (cur + 1)
    else argminAux rest bestIdx bestVal (cur + 1)

/-- `np.argmin` over a list (the source only applies it to nonempty
distance arrays; `numpy` raises on an empty one, modelled as index 0
which the caller turns into an error). -/
def argmin (l : List ℚ) : Nat :=
  match l with
  | [] => 0
  | x :: rest => argminAux rest 0 x 1

/-- Append a (question, embedding) pair to its label's group, keeping
Python-dict insertion order of labels (`cluster_map` in the source). -/
def addToGroup (groups : List (Int × List (QRecord × List ℚ))) (lab : Int)
    (qe : QRecord × List ℚ) : List (Int × List (QRecord × List ℚ)) :=
  match groups with
  | [] => [(lab, [qe])]
  | (k, items) :: rest =>
    if k = lab then (k, items ++ [qe]) :: rest
    else (k, items) :: addToGroup rest lab qe

/-- `QuestionClusterer._build_cluster`: centroid as the coordinatewise
mean, canonical member as the first member nearest the centroid
(`questions[canonical_idx]["normalized_text"]`, a `KeyError` when the
key is absent), per-platform counts with default platform "unknown",
total engagement as `sum(upvotes + comments)` with missing counts
defaulting to 0, and the observed time range over members that carry a
timestamp. -/
def _build_cluster (label : Int) (items : List (QRecord × List ℚ)) :
    Except String QuestionCluster :=
  let qs := items.map Prod.fst
  let embs := items.map Prod.snd
  let centroid := vecMean embs
  let canonical_idx := argmin (embs.map (fun e => sqDist e centroid))
  match qs.get? canonical_idx with
  | none => .error "IndexError"
  | some qc =>
    match qc.normalized_text with
    | none => .error "KeyError"
    | some canonical =>
      .ok { cluster_id := label
            canonical_question := canonical
            questions := qs
            centroid := some centroid
            platform_counts :=
              qs.foldl (fun acc q => bumpPlatform acc (q.platform.getD "unknown")) []
            total_engagement :=
              (qs.map (fun q => q.upvotes.getD 0 + q.comments.getD 0)).sum
            earliest_seen := (qs.filterMap (·.external_created_at)).min?
            latest_seen := (qs.filterMap (·.external_created_at)).max? }

/-- `QuestionClusterer.cluster`. The external `hdbscan.HDBSCAN(...)
.fit_predict` call is the parameter `hdbscanFit` (the constructor
arguments `min_samples`, `metric` and `cluster_selection_method` only
configure that library call); label -1 marks a noise point and is
skipped. Extracting `q["embedding"]` raises `KeyError` on a question
without one. Clusters are sorted by descending total engagement
(Python's stable sort, as insertion sort). -/
def cluster (hdbscanFit : List (List ℚ) → List Int) (min_cluster_size : Nat)
    (questions : List QRecord) : Except String (List QuestionCluster) :=
  if questions = [] ∨ questions.length < min_cluster_size then .ok []
  else
    match mapME getEmbedding questions with
    | .error e => .error e
    | .ok embeddings =>
      let labels := hdbscanFit embeddings
      let groups := (labels.zip (questions.zip embeddings)).foldl
        (fun gs p => if p.1 = -1 then gs else addToGroup gs p.1 p.2) []
      match mapME (fun g => _build_cluster g.1 g.2) groups with
      | .error e => .error e
      | .ok clusters =>
        .ok (clusters.insertionSort (fun a b => b.total_engagement ≤ a.total_engagement))

/-! ### C6 -/

theorem mapME_getEmbedding_err :
    ∀ {l : List QRecord}, (∃ q ∈ l, q.embedding = none) →
      mapME getEmbedding l = .error "KeyError" := by
  intro l
  induction l with
  | nil => rintro ⟨q, hq, _⟩; simp at hq
  | cons a l ih =>
    rintro ⟨q, hq, hqe⟩
    rcases List.mem_cons.mp hq with rfl | hq'
    · simp [mapME, getEmbedding, hqe]
    · cases hae : a.embedding with
      | none => simp [mapME, getEmbedding, hae]
      | some v => simp [mapME, getEmbedding, hae, ih ⟨q, hq', hqe⟩]

/-- Counterexample to C6: three questions (at the default
`min_cluster_size = 3`) none of which carries an embedding make
`cluster` raise `KeyError` at `q["embedding"]` instead of returning the
empty list, whatever the clustering backend does. -/
theorem claim_C6_counterexample :
    cluster (fun _ => []) 3 [qNoRaw, qNoRaw, qNoRaw] = .error "KeyError" := by
  have h : mapME getEmbedding [qNoRaw, qNoRaw, qNoRaw] = .error "KeyError" :=
    mapME_getEmbedding_err ⟨qNoRaw, by simp, rfl⟩
  simp only [cluster]
  rw [if_neg (by simp [qNoRaw])]
  rw [h]

/-- C6 (amended): `cluster` returns the empty list, without raising, on
an empty input or on fewer questions than `min_cluster_size`; but when
at least `min_cluster_size` questions are supplied and some question
carries no embedding, it raises `KeyError` rather than returning an
empty result. -/
theorem claim_C6 (hdbscanFit : List (List ℚ) → List Int) (min_cluster_size : Nat)
    (questions : List QRecord) :
    (questions = [] → cluster hdbscanFit min_cluster_size questions = .ok []) ∧
    (questions.length < min_cluster_size →
      cluster hdbscanFit min_cluster_size questions = .ok []) ∧
    (questions ≠ [] → min_cluster_size ≤ questions.length →
      (∃ q ∈ questions, q.embedding = none) →
      cluster hdbscanFit min_cluster_size questions = .error "KeyError") := by
  refine ⟨?_, ?_, ?_⟩
  · intro h; simp [cluster, h]
  · intro h; simp [cluster, h]
  · intro hne hlen hemb
    simp only [cluster]
    rw [if_neg (by simp [hne, not_lt.mpr hlen])]
    rw [mapME_getEmbedding_err hemb]

/-- Witness for C6 (amended) at concrete inputs. -/
theorem claim_C6_witness :
    cluster (fun _ => []) 3 [] = .ok [] ∧
    cluster (fun _ => []) 3 [qW] = .ok [] ∧
    cluster (fun _ => []) 3 [qNoRaw, qNoRaw, qNoRaw] = .error "KeyError" := by
  have h1 := (claim_C6 (fun _ => []) 3 []).1 rfl
  have h2 := (claim_C6 (fun _ => []) 3 [qW]).2.1 (by simp)
  have h3 := (claim_C6 (fun _ => []) 3 [qNoRaw, qNoRaw, qNoRaw]).2.2
    (by simp) (by simp) ⟨qNoRaw, by simp, rfl⟩
  exact ⟨h1, h2, h3⟩

/-! ### The embedder (`embedder.py`) -/

/-- `QuestionEmbedder.BATCH_SIZE = 100`. -/
def BATCH_SIZE : Nat := 100

/-- `batch_embeddings[item.index] = item.embedding`: a Python list
assignment, raising `IndexError` when the reported index is out of
range. -/
def setChecked (acc : List (Option (List ℚ))) (item : Nat × List ℚ) :
    Except String (List (Option (List ℚ))) :=
  if item.1 < acc.length then .ok (acc.set item.1 (some item.2))
  else .error "IndexError"

/-- The `for item in response.data` placement loop. -/
def placeAll : List (Nat × List ℚ) → List (Option (List ℚ)) →
    Except String (List (Option (List ℚ)))
  | [], acc => .ok acc
  | it :: rest, acc =>
    match setChecked acc it with
    | .error e => .error e
    | .ok acc' => placeAll rest acc'

/-- `range(0, len(texts), BATCH_SIZE)`. -/
def batchStarts (n : Nat) : List Nat :=
  (List.range ((n + BATCH_SIZE - 1) / BATCH_SIZE)).map (· * BATCH_SIZE)

/-- The successive slices `texts[i:i + BATCH_SIZE]`. -/
def batchChunks (texts : List String) : List (List String) :=
  (batchStarts texts.length).map (fun i => (texts.drop i).take BATCH_SIZE)

/-- One service round trip per batch followed by index-based placement
into `[None] * len(batch)`, then `all_embeddings.extend(...)`. The
external embedding service is the parameter `svc`, returning
`(item.index, item.embedding)` pairs in arbitrary order. -/
def processBatches (svc : List String → List (Nat × List ℚ)) :
    List (List String) → Except String (List (Option (List ℚ)))
  | [] => .ok []
  | b :: bs =>
    match placeAll (svc b) (List.replicate b.length none) with
    | .error e => .error e
    | .ok batch_embeddings =>
      match processBatches svc bs with
      | .error e => .error e
      | .ok rest => .ok (batch_embeddings ++ rest)

/-- `QuestionEmbedder.embed_batch`: empty input short-circuits to `[]`;
otherwise the texts are processed in batches of `BATCH_SIZE` and each
response item is placed back at its reported index (a slot the service
never reports stays `None`, which Python would happily return, hence
the `Option` in the result type). -/
def embed_batch (svc : List String → List (Nat × List ℚ)) (texts : List String) :
    Except String (List (Option (List ℚ))) :=
  if texts = [] then .ok []
  else processBatches svc (batchChunks texts)

/-! ### C8 -/

theorem placeAll_char :
    ∀ (items : List (Nat × List ℚ)) (acc : List (Option (List ℚ))),
      (∀ p ∈ items, p.1 < acc.length) → (items.map Prod.fst).Nodup →
      ∃ res, placeAll items acc = .ok res ∧ res.length = acc.length ∧
        (∀ j v, (j, v) ∈ items → res[j]? = some (some v)) ∧
        (∀ j, (∀ v, (j, v) ∉ items) → res[j]? = acc[j]?) := by
  intro items
  induction items with
  | nil =>
    intro acc _ _
    exact ⟨acc, rfl, rfl, by simp, fun j _ => rfl⟩
  | cons it rest ih =>
    intro acc hlt hnd
    obtain ⟨i, v⟩ := it
    have hi : i < acc.length := hlt (i, v) (List.mem_cons_self _ _)
    have hset : setChecked acc (i, v) = .ok (acc.set i (some v)) := by
      simp [setChecked, hi]
    have hnd' : (rest.map Prod.fst).Nodup := (List.nodup_cons.mp hnd).2
    have hinotin : i ∉ rest.map Prod.fst := (List.nodup_cons.mp hnd).1
    have hlt' : ∀ p ∈ rest, p.1 < (acc.set i (some v)).length := by
      intro p hp
      rw [List.length_set]
      exact hlt p (List.mem_cons_of_mem _ hp)
    obtain ⟨res, hok, hlen, hin, hout⟩ := ih (acc.set i (some v)) hlt' hnd'
    refine ⟨res, ?_, by rw [hlen, List.length_set], ?_, ?_⟩
    · simp [placeAll, hset, hok]
    · intro j w hjw
      rcases List.mem_cons.mp hjw with heq | hmem
      · obtain ⟨rfl, rfl⟩ : j = i ∧ w = v := Prod.mk.inj heq
        have hjnot : ∀ w', (j, w') ∉ rest := by
          intro w' hw'
          exact hinotin (List.mem_map.mpr ⟨(j, w'), hw', rfl⟩)
        rw [hout j hjnot]
        exact List.getElem?_set_self hi
      · exact hin j w hmem
    · intro j hjnot
      have hji : j ≠ i := by
        intro heq
        exact hjnot v (by rw [heq]; exact List.mem_cons_self _ _)
      rw [hout j (fun w hw => hjnot w (List.mem_cons_of_mem _ hw))]
      exact List.getElem?_set_ne (Ne.symm hji)

theorem placeAll_perm_enum {v : List (List ℚ)} {items : List (Nat × List ℚ)}
    (h : items.Perm v.enum) :
    placeAll items (List.replicate v.length none) = .ok (v.map some) := by
  have hlt : ∀ p ∈ items, p.1 < (List.replicate v.length (none : Option (List ℚ))).length := by
    intro p hp
    rw [List.length_replicate]
    have hp' : p ∈ v.enum := h.subset hp
    obtain ⟨i, x⟩ := p
    have := List.mk_mem_enum_iff_getElem?.mp hp'
    exact (List.getElem?_eq_some.mp this).1
  have hnd : (items.map Prod.fst).Nodup := by
    have : (items.map Prod.fst).Perm (v.enum.map Prod.fst) := h.map Prod.fst
    rw [List.enum_map_fst] at this
    exact this.nodup_iff.mpr (List.nodup_range _)
  obtain ⟨res, hok, hlen, hin, hout⟩ := placeAll_char items _ hlt hnd
  rw [hok]
  congr 1
  apply List.ext_getElem?
  intro j
  rw [List.length_replicate] at hlen
  by_cases hj : j < v.length
  · have hv : (j, v[j]) ∈ v.enum := List.mk_mem_enum_iff_getElem?.mpr (by simp [hj])
    have hres := hin j v[j] (h.mem_iff.mpr hv)
    rw [hres]
    rw [List.getElem?_map]
    simp [List.getElem?_eq_getElem hj]
  · have hnotin : ∀ w, (j, w) ∉ items := by
      intro w hw
      have := List.mk_mem_enum_iff_getElem?.mp (h.subset hw)
      exact hj (List.getElem?_eq_some.mp this).1
    rw [hout j hnotin, List.getElem?_map]
    have h1 : (List.replicate v.length (none : Option (List ℚ)))[j]? = none := by
      rw [List.getElem?_eq_none]
      rw [List.length_replicate]
      exact not_lt.mp hj
    have h2 : v[j]? = none := List.getElem?_eq_none (not_lt.mp hj)
    rw [h1, h2]
    rfl

theorem batchChunks_flatten : ∀ (l : List String), (batchChunks l).flatten = l := by
  suffices H : ∀ (n : Nat) (l : List String), l.length ≤ n → (batchChunks l).flatten = l by
    intro l; exact H l.length l le_rfl
  intro n
  induction n with
  | zero =>
    intro l hl
    obtain rfl : l = [] := List.length_eq_zero.mp (Nat.le_zero.mp hl)
    rfl
  | succ n ih =>
    intro l hl
    rcases l with _ | ⟨a, t⟩
    · rfl
    · have hm : ((a :: t).length + BATCH_SIZE - 1) / BATCH_SIZE
          = (((a :: t).drop BATCH_SIZE).length + BATCH_SIZE - 1) / BATCH_SIZE + 1 := by
        simp only [BATCH_SIZE, List.length_cons, List.length_drop]
        omega
      have hstep : batchChunks (a :: t)
          = (a :: t).take BATCH_SIZE :: batchChunks ((a :: t).drop BATCH_SIZE) := by
        simp only [batchChunks, batchStarts, List.map_map]
        rw [hm, List.range_succ_eq_map]
        simp only [List.map_cons, List.map_map, Function.comp]
        refine congrArg₂ List.cons (by simp) ?_
        apply List.map_congr_left
        intro k _
        simp only [List.drop_drop]
        refine congrArg₂ (fun i (m : List String) => List.take BATCH_SIZE (List.drop i m)) ?_ rfl
        simp only [BATCH_SIZE]
        omega
      rw [hstep]
      simp only [List.flatten_cons]
      have hlen : t.length + 1 ≤ n + 1 := by
        simpa using hl
      rw [ih ((a :: t).drop BATCH_SIZE)
        (by simp only [List.length_drop, List.length_cons, BATCH_SIZE]; omega)]
      exact List.take_append_drop _ _

theorem processBatches_ok (svc : List String → List (Nat × List ℚ)) (E : String → List ℚ) :
    ∀ (bs : List (List String)), (∀ b ∈ bs, (svc b).Perm ((b.map E).enum)) →
      processBatches svc bs = .ok ((bs.flatten).map (fun t => some (E t))) := by
  intro bs
  induction bs with
  | nil => intro _; rfl
  | cons b rest ih =>
    intro hall
    have hb : (svc b).Perm ((b.map E).enum) := hall b (List.mem_cons_self _ _)
    have hplace : placeAll (svc b) (List.replicate b.length none)
        = .ok ((b.map E).map some) := by
      have := placeAll_perm_enum hb
      rwa [List.length_map] at this
    simp only [processBatches, hplace, ih (fun x hx => hall x (List.mem_cons_of_mem _ hx))]
    simp [List.map_map, Function.comp]

/-- C8: when the service answers each submitted batch with the correct
(index, embedding) pairs in an arbitrary order, `embed_batch` returns
exactly one vector per input text, in input order (every slot filled);
and `embed_batch []` returns `[]` unconditionally. -/
theorem claim_C8 (svc : List String → List (Nat × List ℚ)) (E : String → List ℚ)
    (texts : List String)
    (hsvc : ∀ b ∈ batchChunks texts, (svc b).Perm ((b.map E).enum)) :
    embed_batch svc texts = .ok (texts.map (fun t => some (E t))) ∧
    (∀ vecs, embed_batch svc texts = .ok vecs → vecs.length = texts.length) ∧
    embed_batch svc [] = .ok [] := by
  have hmain : embed_batch svc texts = .ok (texts.map (fun t => some (E t))) := by
    unfold embed_batch
    split_ifs with h
    · subst h; rfl
    · rw [processBatches_ok svc E _ hsvc, batchChunks_flatten]
  refine ⟨hmain, ?_, rfl⟩
  intro vecs hv
  rw [hmain] at hv
  have := Except.ok.inj hv
  rw [← this, List.length_map]

/-- The out-of-order service used in the C8 witness: it answers with
the correct pairs reversed. -/
def svcW : List String → List (Nat × List ℚ) :=
  fun b => ((b.map (fun _ => ([] : List ℚ))).enum).reverse

/-- Witness for C8: a two-text batch answered in reverse order still
comes back in input order. -/
theorem claim_C8_witness :
    embed_batch svcW ["a", "b"] = .ok [some [], some []] := by
  have hs : ∀ b ∈ batchChunks ["a", "b"],
      (svcW b).Perm ((b.map (fun _ => ([] : List ℚ))).enum) := by
    intro b hb
    exact (List.reverse_perm _)
  have h := (claim_C8 svcW (fun _ => ([] : List ℚ)) ["a", "b"] hs).1
  simpa using h

/-! ### The normalizer (`normalizer.py`)

Each `re.sub(pattern, repl, text)` is embedded as a left-to-right scan
(`subAll`) driven by a pattern-specific matcher: at each position the
matcher either matches — returning the replacement text and the number
of characters consumed (all patterns below consume at least one) — or
the scan emits the current character and moves on one position. After a
match the scan resumes right after the consumed characters of the
*original* text, exactly as `re.sub` does, and remembers the previously
scanned original character so that `\b` can be tested. The scan carries
`fuel` (initialized to the text length, which every run exceeds only
when a matcher consumed nothing, which none below does) to stay
structurally recursive. -/

/-- Python's `\w` on the ASCII inputs at hand: letters, digits,
underscore. -/
def isWordChar (c : Char) : Bool := c.isAlphanum || c == '_'

/-- Case-insensitive character comparison (`re.IGNORECASE`). -/
def ciEq (a b : Char) : Bool := a.toLower == b.toLower

/-- Case-insensitive literal prefix match, returning the number of
characters consumed. -/
def matchLit : List Char → List Char → Option Nat
  | [], _ => some 0
  | _ :: _, [] => none
  | p :: ps, c :: rest =>
    if ciEq p c then (matchLit ps rest).map (· + 1) else none

/-- A pattern matcher: previous original character (for `\b`), current
suffix; on success, the replacement text and consumed length. -/
def SubMatcher : Type := Option Char → List Char → Option (List Char × Nat)

/-- The `re.sub` scan (see the section comment). -/
def subAllAux (m : SubMatcher) : Nat → Option Char → List Char → List Char
  | 0, _, _ => []
  | _ + 1, _, [] => []
  | fuel + 1, prev, c :: rest =>
    match m prev (c :: rest) with
    | some (rep, k) =>
      let k := max k 1
      rep ++ subAllAux m fuel (((c :: rest).take k).getLast?) ((c :: rest).drop k)
    | none => c :: subAllAux m fuel (some c) rest

/-- `re.sub(pattern, repl, text)` for the matchers below. -/
def subAll (m : SubMatcher) (cs : List Char) : List Char :=
  subAllAux m cs.length none cs

/-- Drop trailing whitespace. -/
def dropTrailingWs (cs : List Char) : List Char :=
  (cs.reverse.dropWhile Char.isWhitespace).reverse

/-- `r"^\[.*?\]\s*"` (reddit leading tag): anchored at the start, applied
once; `.` does not cross a newline, `\s*` then eats following
whitespace. -/
def stripLeadingTag (cs : List Char) : List Char :=
  match cs with
  | '[' :: rest =>
    match (rest.takeWhile (· ≠ '\n')).findIdx? (· == ']') with
    | some i => (rest.drop (i + 1)).dropWhile Char.isWhitespace
    | none => cs
  | _ => cs

/-- `r"\s*\[.*?\]\s*$"` (reddit trailing flair). A match runs to the end
of the string, so the only viable closing `]` is the last
non-whitespace character; the lazy `.*?` before it must not cross a
newline. -/
def trailingTagMatcher : SubMatcher := fun _ cs =>
  let ws := (cs.takeWhile Char.isWhitespace).length
  match cs.drop ws with
  | '[' :: content =>
    let trimmed := dropTrailingWs content
    if trimmed.getLast? = some ']' ∧ ¬ trimmed.dropLast.contains '\n' then
      some ([], cs.length)
    else none
  | _ => none

/-- `r"\(x-?post.*?\)"` (cross-post mention), case-insensitive. -/
def xpostMatcher : SubMatcher := fun _ cs =>
  match cs with
  | '(' :: rest =>
    match matchLit ['x'] rest with
    | none => none
    | some _ =>
      let afterX := rest.drop 1
      let afterDash := if afterX.head? = some '-' then afterX.drop 1 else afterX
      let dashLen := if afterX.head? = some '-' then 1 else 0
      match matchLit ['p', 'o', 's', 't'] afterDash with
      | none => none
      | some _ =>
        let tail := afterDash.drop 4
        match (tail.takeWhile (· ≠ '\n')).findIdx? (· == ')') with
        | some i => some ([], 1 + 1 + dashLen + 4 + i + 1)
        | none => none
  | _ => none

/-- `r"/r/\w+"` (subreddit reference). -/
def subredditMatcher : SubMatcher := fun _ cs =>
  match matchLit ['/', 'r', '/'] cs with
  | none => none
  | some _ =>
    let w := ((cs.drop 3).takeWhile isWordChar).length
    if w ≥ 1 then some ([], 3 + w) else none

/-- `r"u/\w+"` (user reference), case-insensitive. -/
def userRefMatcher : SubMatcher := fun _ cs =>
  match matchLit ['u', '/'] cs with
  | none => none
  | some _ =>
    let w := ((cs.drop 2).takeWhile isWordChar).length
    if w ≥ 1 then some ([], 2 + w) else none

/-- `r"edit\d*:.*$"` (edit note), case-insensitive. `.*` stops before a
newline and `$` only matches at the end of the string or before a
final newline, so the pattern matches only when nothing, or exactly a
final newline, follows the edit line. -/
def editMatcher : SubMatcher := fun _ cs =>
  match matchLit ['e', 'd', 'i', 't'] cs with
  | none => none
  | some _ =>
    let d := ((cs.drop 4).takeWhile Char.isDigit).length
    match (cs.drop (4 + d)).head? with
    | some ':' =>
      let tail := cs.drop (4 + d + 1)
      if ¬ tail.contains '\n' then some ([], cs.length)
      else if tail.getLast? = some '\n' ∧ ¬ tail.dropLast.contains '\n' then
        some ([], cs.length - 1)
      else none
    | _ => none

/-- A case-insensitive literal pattern (the Stack Exchange tags). -/
def litMatcher (pat : List Char) : SubMatcher := fun _ cs =>
  match matchLit pat cs with
  | some k => some ([], k)
  | none => none

/-- First position of a doubled `ch` (for `**`/`~~`), not crossing a
newline (the lazy group `(.*?)` cannot contain one). -/
def findDouble (ch : Char) : List Char → Option Nat
  | a :: b :: rest =>
    if a = '\n' then none
    else if a = ch ∧ b = ch then some 0
    else (findDouble ch (b :: rest)).map (· + 1)
  | _ => none

/-- `\*\*(.*?)\*\*` and `~~(.*?)~~`: doubled delimiter, keep the group. -/
def doubleDelimMatcher (ch : Char) : SubMatcher := fun _ cs =>
  match cs with
  | a :: b :: rest =>
    if a = ch ∧ b = ch then
      match findDouble ch rest with
      | some i => some (rest.take i, 2 + i + 2)
      | none => none
    else none
  | _ => none

/-- `\*(.*?)\*` and `` `(.*?)` ``: single delimiter, keep the group. -/
def singleDelimMatcher (ch : Char) : SubMatcher := fun _ cs =>
  match cs with
  | a :: rest =>
    if a = ch then
      match (rest.takeWhile (· ≠ '\n')).findIdx? (· == ch) with
      | some i => some (rest.take i, 1 + i + 1)
      | none => none
    else none
  | _ => none

/-- `\[([^\]]+)\]\([^)]+\)`: markdown link, keep the link text. -/
def linkMatcher : SubMatcher := fun _ cs =>
  match cs with
  | '[' :: rest =>
    let t1 := rest.takeWhile (· ≠ ']')
    if t1.length ≥ 1 ∧ (rest.drop t1.length).head? = some ']' then
      match rest.drop (t1.length + 1) with
      | '(' :: rest2 =>
        let t2 := rest2.takeWhile (· ≠ ')')
        if t2.length ≥ 1 ∧ (rest2.drop t2.length).head? = some ')' then
          some (t1, 1 + t1.length + 1 + 1 + t2.length + 1)
        else none
      | _ => none
    else none
  | _ => none

/-- `\b...\b` wrapper for the abbreviation patterns: every pattern both
starts and ends in a word character, so the boundaries hold exactly
when the neighbouring characters are not word characters (or absent). -/
def abbrevMatcher (core : List Char → Option Nat) (rep : List Char) : SubMatcher :=
  fun prev cs =>
    match core cs with
    | none => none
    | some k =>
      if (prev.elim true (fun c => !(isWordChar c)))
          ∧ ((cs.drop k).head?.elim true (fun c => !(isWordChar c))) then
        some (rep, k)
      else none

/-- `gpt-?4` (after the literal `gpt`, an optional dash then `4`). -/
def coreGpt4 (cs : List Char) : Option Nat :=
  match matchLit ['g', 'p', 't'] cs with
  | none => none
  | some _ =>
    match cs.drop 3 with
    | '-' :: '4' :: _ => some 5
    | '4' :: _ => some 4
    | _ => none

/-- `gpt-?3\.?5`. -/
def coreGpt35 (cs : List Char) : Option Nat :=
  match matchLit ['g', 'p', 't'] cs with
  | none => none
  | some _ =>
    match cs.drop 3 with
    | '-' :: '3' :: '.' :: '5' :: _ => some 7
    | '-' :: '3' :: '5' :: _ => some 6
    | '3' :: '.' :: '5' :: _ => some 6
    | '3' :: '5' :: _ => some 5
    | _ => none

/-- The `ABBREVIATIONS` dict in insertion order (Python 3.7+ iteration
order). -/
def expandAbbreviations (cs : List Char) : List Char :=
  let r := subAll (abbrevMatcher (matchLit ['g', 'p', 't']) "GPT".toList) cs
  let r := subAll (abbrevMatcher coreGpt4 "GPT-4".toList) r
  let r := subAll (abbrevMatcher coreGpt35 "GPT-3.5".toList) r
  let r := subAll (abbrevMatcher (matchLit ['l', 'l', 'm']) "large language model".toList) r
  let r := subAll (abbrevMatcher (matchLit ['l', 'l', 'm', 's']) "large language models".toList) r
  let r := subAll (abbrevMatcher (matchLit ['m', 'l']) "machine learning".toList) r
  let r := subAll (abbrevMatcher (matchLit ['a', 'i']) "artificial intelligence".toList) r
  let r := subAll (abbrevMatcher (matchLit ['n', 'l', 'p']) "natural language processing".toList) r
  let r := subAll (abbrevMatcher (matchLit ['r', 'a', 'g']) "retrieval augmented generation".toList) r
  let r := subAll (abbrevMatcher (matchLit ['a', 'p', 'i']) "API".toList) r
  subAll (abbrevMatcher (matchLit ['e', 'l', 'i', '5']) "explain like I'm 5".toList) r

/-- The `MARKDOWN_PATTERNS` in order: bold, italic, strikethrough,
inline code, links. -/
def cleanMarkdown (cs : List Char) : List Char :=
  let r := subAll (doubleDelimMatcher '*') cs
  let r := subAll (singleDelimMatcher '*') r
  let r := subAll (doubleDelimMatcher '~') r
  let r := subAll (singleDelimMatcher '`') r
  subAll linkMatcher r

/-- The `PLATFORM_ARTIFACTS` passes for the given platform (any
platform not in the dict, or `None`, leaves the text alone). -/
def removeArtifacts (platform : Option String) (cs : List Char) : List Char :=
  match platform with
  | some "reddit" =>
    let r := stripLeadingTag cs
    let r := subAll trailingTagMatcher r
    let r := subAll xpostMatcher r
    let r := subAll subredditMatcher r
    let r := subAll userRefMatcher r
    subAll editMatcher r
  | some "stackexchange" =>
    let r := subAll (litMatcher "[closed]".toList) cs
    let r := subAll (litMatcher "[duplicate]".toList) r
    let r := subAll (litMatcher "[on hold]".toList) r
    subAll (litMatcher "[migrated]".toList) r
  | _ => cs

/-- Python `text.split()`: the maximal whitespace-free runs. -/
def wordsOf (cs : List Char) : List (List Char) :=
  (cs.splitOnP Char.isWhitespace).filter (· ≠ [])

/-- `" ".join(text.split())`: Python `split()` splits on whitespace
runs and drops empty fields. -/
def wsCollapse (cs : List Char) : List Char :=
  List.intercalate [' '] (wordsOf cs)

/-- A maximal run of `ch` of length at least `minLen`, replaced by
`rep` (`\?{2,}` → `?`, `!{2,}` → `!`, `\.{3,}` → `...`). -/
def runMatcher (ch : Char) (minLen : Nat) (rep : List Char) : SubMatcher := fun _ cs =>
  let k := (cs.takeWhile (· == ch)).length
  if k ≥ minLen then some (rep, k) else none

/-- The excessive-punctuation passes, in source order. -/
def collapsePunct (cs : List Char) : List Char :=
  let r := subAll (runMatcher '?' 2 ['?']) cs
  let r := subAll (runMatcher '!' 2 ['!']) r
  subAll (runMatcher '.' 3 ['.', '.', '.']) r

/-- `QuestionNormalizer._is_question_structure`'s `question_starters`. -/
def question_starters : List (List Char) :=
  ["what".toList, "why".toList, "how".toList, "when".toList, "where".toList,
   "who".toList, "which".toList, "can".toList, "could".toList, "would".toList,
   "should".toList, "will".toList, "is".toList, "are".toList, "do".toList,
   "does".toList, "has".toList, "have".toList, "am".toList, "was".toList,
   "were".toList]

/-- `QuestionNormalizer._is_question_structure`: first word (lowercased)
is a question starter, or the text contains a question mark. -/
def _is_question_structure (cs : List Char) : Bool :=
  let first_word := ((wordsOf cs).head?.getD []).map Char.toLower
  question_starters.contains first_word || cs.contains '?'

/-- `result.rstrip(".!")`. -/
def rstripDotBang (cs : List Char) : List Char :=
  (cs.reverse.dropWhile (fun c => c == '.' || c == '!')).reverse

/-- `QuestionNormalizer.normalize`. Empty text short-circuits; then
platform-artifact removal, markdown cleanup, abbreviation expansion,
whitespace collapsing, punctuation collapsing, question-mark
completion, optional lowering, final strip. -/
def QuestionNormalizer.normalize (text : String) (platform : Option String)
    (lowercase : Bool) : String :=
  if text = "" then ""
  else
    let r := pyStrip text.toList
    let r := removeArtifacts platform r
    let r := cleanMarkdown r
    let r := expandAbbreviations r
    let r := wsCollapse r
    let r := collapsePunct r
    let r := if _is_question_structure r ∧ ¬ (r.getLast? = some '?') then
        rstripDotBang r ++ ['?']
      else r
    let r := if lowercase then r.map Char.toLower else r
    String.mk (pyStrip r)

/-! ### C9 -/

/-- Counterexample to C9: `normalize("hi?.")` appends a question mark
after the punctuation-collapsing step, producing `"hi??"`; a second
pass collapses that to `"hi?"`, so the normalizer is not idempotent. -/
theorem claim_C9_counterexample :
    QuestionNormalizer.normalize (QuestionNormalizer.normalize "hi?." none false) none false
      ≠ QuestionNormalizer.normalize "hi?." none false := by
  decide

theorem pyStrip_eq_rdropWhile (cs : List Char) :
    pyStrip cs = List.rdropWhile Char.isWhitespace (cs.dropWhile Char.isWhitespace) := rfl

theorem dropWhile_eq_self_of_prefix {p : Char → Bool} {t m : List Char}
    (ht : t <+: m) (hm : m.dropWhile p = m) : t.dropWhile p = t := by
  cases t with
  | nil => rfl
  | cons c t' =>
    obtain ⟨rest, hrest⟩ := ht
    have hc : p c = false := by
      by_contra hpc
      have hpc' : p c = true := by simpa using hpc
      rw [← hrest, List.cons_append, List.dropWhile_cons] at hm
      rw [hpc'] at hm
      simp only [if_true] at hm
      have hlen := congrArg List.length hm
      have hle : (List.dropWhile p (t' ++ rest)).length ≤ (t' ++ rest).length :=
        (List.dropWhile_sublist p).length_le
      simp only [List.length_append, List.length_cons] at hlen hle
      omega
    rw [List.dropWhile_cons, hc]
    simp

theorem pyStrip_idempotent (l : List Char) : pyStrip (pyStrip l) = pyStrip l := by
  rw [pyStrip_eq_rdropWhile, pyStrip_eq_rdropWhile]
  have h1 : (List.rdropWhile Char.isWhitespace
      (l.dropWhile Char.isWhitespace)).dropWhile Char.isWhitespace
      = List.rdropWhile Char.isWhitespace (l.dropWhile Char.isWhitespace) :=
    dropWhile_eq_self_of_prefix (List.rdropWhile_prefix _ _) (List.dropWhile_idempotent _ _)
  rw [h1, List.rdropWhile_idempotent]

theorem getLast?_pyStrip {l : List Char} {c : Char}
    (hc : Char.isWhitespace c = false) (h : l.getLast? = some c) :
    (pyStrip l).getLast? = some c := by
  obtain ⟨init, rfl⟩ := List.getLast?_eq_some_iff.mp h
  rw [pyStrip_eq_rdropWhile]
  have hdw : ∃ init', (init ++ [c]).dropWhile Char.isWhitespace = init' ++ [c] := by
    rw [List.dropWhile_append]
    split_ifs with he
    · exact ⟨[], by simp [List.dropWhile_cons, hc]⟩
    · exact ⟨init.dropWhile Char.isWhitespace, rfl⟩
  obtain ⟨init', hinit'⟩ := hdw
  rw [hinit', List.rdropWhile_concat_neg]
  · exact List.getLast?_concat _
  · simp [hc]

theorem mem_pyStrip {l : List Char} {c : Char} (h : c ∈ pyStrip l) : c ∈ l := by
  rw [pyStrip_eq_rdropWhile] at h
  have h1 : c ∈ (l.dropWhile Char.isWhitespace) :=
    (List.rdropWhile_prefix _ _).subset h
  exact (List.dropWhile_sublist _).subset h1

theorem splitOnP_headD (P : Char → Bool) :
    ∀ l : List Char, ((List.splitOnP P l).headD []) = l.takeWhile (fun c => !(P c)) := by
  intro l
  induction l with
  | nil => simp [List.splitOnP_nil]
  | cons x xs ih =>
    rw [List.splitOnP_cons]
    by_cases hx : P x
    · simp [hx, List.takeWhile_cons]
    · have hx' : P x = false := by simpa using hx
      cases hsp : List.splitOnP P xs with
      | nil => exact absurd hsp (List.splitOnP_ne_nil _ _)
      | cons h hs =>
        simp only [hx', if_false, List.modifyHead, List.headD_cons, List.takeWhile_cons]
        rw [hsp] at ih
        simp only [List.headD_cons] at ih
        simp [hx', ih]

theorem wordsOf_headD :
    ∀ l : List Char, ((wordsOf l).headD []) =
      (l.dropWhile Char.isWhitespace).takeWhile (fun c => !(Char.isWhitespace c)) := by
  intro l
  induction l with
  | nil => simp [wordsOf, List.splitOnP_nil]
  | cons x xs ih =>
    by_cases hx : Char.isWhitespace x
    · have : wordsOf (x :: xs) = wordsOf xs := by
        simp [wordsOf, List.splitOnP_cons, hx]
      rw [this, ih, List.dropWhile_cons, hx]
      simp
    · have hx' : Char.isWhitespace x = false := by simpa using hx
      cases hsp : List.splitOnP Char.isWhitespace xs with
      | nil => exact absurd hsp (List.splitOnP_ne_nil _ _)
      | cons h hs =>
        have hw : wordsOf (x :: xs) = (x :: h) :: hs.filter (· ≠ []) := by
          simp [wordsOf, List.splitOnP_cons, hx', hsp, List.modifyHead]
        rw [hw]
        have hh : h = xs.takeWhile (fun c => !(Char.isWhitespace c)) := by
          have := splitOnP_headD Char.isWhitespace xs
          rw [hsp] at this
          simpa using this
        rw [List.dropWhile_cons, hx']
        simp only [if_false, List.headD_cons]
        simp [List.takeWhile_cons, hx', hh]

theorem takeWhile_append_all_neg {p : Char → Bool} {t run : List Char}
    (hrun : ∀ c ∈ run, p c = false) :
    (t ++ run).takeWhile p = t.takeWhile p := by
  induction t with
  | nil =>
    cases run with
    | nil => rfl
    | cons c rest =>
      simp [List.takeWhile_cons, hrun c (List.mem_cons_self _ _)]
  | cons a t' ih =>
    rw [List.cons_append, List.takeWhile_cons, List.takeWhile_cons]
    cases hpa : p a
    · simp
    · simp [ih]

theorem wordsOf_headD_pyStrip (l : List Char) :
    ((wordsOf (pyStrip l)).headD []) = ((wordsOf l).headD []) := by
  rw [wordsOf_headD, wordsOf_headD, pyStrip_eq_rdropWhile]
  have hdw : (List.rdropWhile Char.isWhitespace
      (l.dropWhile Char.isWhitespace)).dropWhile Char.isWhitespace
      = List.rdropWhile Char.isWhitespace (l.dropWhile Char.isWhitespace) :=
    dropWhile_eq_self_of_prefix (List.rdropWhile_prefix _ _) (List.dropWhile_idempotent _ _)
  rw [hdw]
  set m := l.dropWhile Char.isWhitespace with hm
  have hsplit : m = List.rdropWhile Char.isWhitespace m
      ++ (m.reverse.takeWhile Char.isWhitespace).reverse := by
    rw [List.rdropWhile]
    rw [← List.reverse_append, List.takeWhile_append_dropWhile (l := m.reverse)]
    rw [List.reverse_reverse]
  have hrun : ∀ c ∈ (m.reverse.takeWhile Char.isWhitespace).reverse,
      (fun c => !(Char.isWhitespace c)) c = false := by
    intro c hc
    have := List.mem_takeWhile_imp (List.mem_reverse.mp hc)
    simpa using this
  conv_rhs => rw [hsplit]
  rw [takeWhile_append_all_neg hrun]

theorem isq_pyStrip {l : List Char}
    (h : _is_question_structure (pyStrip l) = true) :
    _is_question_structure l = true := by
  have hbr : ∀ (L : List (List Char)), L.head?.getD ([] : List Char) = L.headD [] :=
    fun L => by cases L <;> rfl
  unfold _is_question_structure at h ⊢
  simp only [Bool.or_eq_true] at h ⊢
  rcases h with h | h
  · left
    rw [hbr] at h ⊢
    rwa [wordsOf_headD_pyStrip] at h
  · right
    have h' : '?' ∈ pyStrip l := by
      have := List.contains_iff_exists_mem_beq.mp h
      obtain ⟨a, ha, hbeq⟩ := this
      have : '?' = a := by simpa using hbeq
      rwa [this]
    have h'' : '?' ∈ l := mem_pyStrip h'
    exact List.elem_eq_true_of_mem h''

theorem string_mk_toList (s : String) : String.mk s.toList = s := by
  cases s
  rfl

theorem normalize_self {s : String} (p : Option String) (hne : s ≠ "")
    (hstrip : pyStrip s.toList = s.toList)
    (h1 : removeArtifacts p s.toList = s.toList)
    (h2 : cleanMarkdown s.toList = s.toList)
    (h3 : expandAbbreviations s.toList = s.toList)
    (h4 : wsCollapse s.toList = s.toList)
    (h5 : collapsePunct s.toList = s.toList)
    (hq : ¬(_is_question_structure s.toList ∧ ¬ (s.toList.getLast? = some '?'))) :
    QuestionNormalizer.normalize s p false = s := by
  unfold QuestionNormalizer.normalize
  rw [if_neg hne]
  dsimp only
  rw [hstrip, h1, h2, h3, h4, h5, if_neg hq]
  rw [if_neg (by simp : ¬ ((false : Bool) = true))]
  rw [hstrip]
  exact string_mk_toList s

/-- C9 (amended): the normalizer is not idempotent in general (see the
counterexample); a second pass is a no-op whenever the rewriting
stages no longer touch the first pass's output: if artifact removal,
markdown cleanup, abbreviation expansion, whitespace collapsing and
punctuation collapsing are each inert on `normalize(x, p)`, then
`normalize(normalize(x, p), p) = normalize(x, p)` — in particular the
question-mark completion and the final strip never re-fire on such an
output. -/
theorem claim_C9 (x : String) (p : Option String)
    (h1 : removeArtifacts p (QuestionNormalizer.normalize x p false).toList
        = (QuestionNormalizer.normalize x p false).toList)
    (h2 : cleanMarkdown (QuestionNormalizer.normalize x p false).toList
        = (QuestionNormalizer.normalize x p false).toList)
    (h3 : expandAbbreviations (QuestionNormalizer.normalize x p false).toList
        = (QuestionNormalizer.normalize x p false).toList)
    (h4 : wsCollapse (QuestionNormalizer.normalize x p false).toList
        = (QuestionNormalizer.normalize x p false).toList)
    (h5 : collapsePunct (QuestionNormalizer.normalize x p false).toList
        = (QuestionNormalizer.normalize x p false).toList) :
    QuestionNormalizer.normalize (QuestionNormalizer.normalize x p false) p false
      = QuestionNormalizer.normalize x p false := by
  by_cases hne : QuestionNormalizer.normalize x p false = ""
  · rw [hne]; rfl
  · have hx : x ≠ "" := fun hx0 => hne (by rw [hx0]; rfl)
    have hnx : QuestionNormalizer.normalize x p false
        = String.mk (pyStrip (
            if _is_question_structure (collapsePunct (wsCollapse (expandAbbreviations
                (cleanMarkdown (removeArtifacts p (pyStrip x.toList))))))
              ∧ ¬ ((collapsePunct (wsCollapse (expandAbbreviations
                (cleanMarkdown (removeArtifacts p (pyStrip x.toList)))))).getLast? = some '?')
            then rstripDotBang (collapsePunct (wsCollapse (expandAbbreviations
                (cleanMarkdown (removeArtifacts p (pyStrip x.toList)))))) ++ ['?']
            else collapsePunct (wsCollapse (expandAbbreviations
                (cleanMarkdown (removeArtifacts p (pyStrip x.toList))))))) := by
      unfold QuestionNormalizer.normalize
      rw [if_neg hx]
      dsimp only
      rw [if_neg (by simp : ¬ ((false : Bool) = true))]
    set y := collapsePunct (wsCollapse (expandAbbreviations
      (cleanMarkdown (removeArtifacts p (pyStrip x.toList))))) with hy
    have hlist : (QuestionNormalizer.normalize x p false).toList
        = pyStrip (if _is_question_structure y ∧ ¬ (y.getLast? = some '?')
            then rstripDotBang y ++ ['?'] else y) := by
      rw [hnx]
      simp only [String.toList]
    have hstrip : pyStrip (QuestionNormalizer.normalize x p false).toList
        = (QuestionNormalizer.normalize x p false).toList := by
      rw [hlist]
      exact pyStrip_idempotent _
    have hq : ¬(_is_question_structure (QuestionNormalizer.normalize x p false).toList
        ∧ ¬ ((QuestionNormalizer.normalize x p false).toList.getLast? = some '?')) := by
      by_cases hcond : _is_question_structure y ∧ ¬ (y.getLast? = some '?')
      · have hlast : (QuestionNormalizer.normalize x p false).toList.getLast? = some '?' := by
          rw [hlist, if_pos hcond]
          exact getLast?_pyStrip (by decide) (List.getLast?_concat _)
        intro hcontra
        exact hcontra.2 hlast
      · have hlist' : (QuestionNormalizer.normalize x p false).toList = pyStrip y := by
          rw [hlist, if_neg hcond]
        rcases not_and_or.mp hcond with hA | hB
        · intro hcontra
          apply hA
          have hq1 := hcontra.1
          rw [hlist'] at hq1
          exact isq_pyStrip hq1
        · have hy' : y.getLast? = some '?' := not_not.mp hB
          intro hcontra
          apply hcontra.2
          rw [hlist']
          exact getLast?_pyStrip (by decide) hy'
    exact normalize_self p hne hstrip h1 h2 h3 h4 h5 hq

/-- Witness for C9 (amended): on "why is water wet" every rewriting
stage is inert on the output "why is water wet?", so a second pass
changes nothing. -/
theorem claim_C9_witness :
    QuestionNormalizer.normalize
        (QuestionNormalizer.normalize "why is water wet" none false) none false
      = QuestionNormalizer.normalize "why is water wet" none false :=
  claim_C9 "why is water wet" none (by decide) (by decide) (by decide) (by decide) (by decide)
